import Mathlib

/-!
# GraphiVault: a shallow embedding of the Python backend, with proofs

This file embeds the parts of the GraphiVault Python backend
(`python_backend/`) that the specification's claims are about, and proves
or refutes each claim against the embedding.

Conventions used throughout:

* Machine time (`time.time()`, `datetime.now(timezone.utc)`) is modelled as
  a natural number of seconds; all comparisons in the source are `<` / `>`
  on these values.
* Byte strings are `List Nat` (one `Nat` per byte).
* Randomness (`secrets.token_bytes`, `uuid.uuid4`) is modelled by passing
  the drawn value as an explicit argument.
* Cryptographic primitives (PBKDF2, the AES-GCM keystream and tag, SHA-256 /
  SHA-512) are pure functions of their inputs; they are taken as function
  parameters, constrained only by properties that are true of the real
  primitive (e.g. PBKDF2 with `length=32` always returns 32 bytes).  All
  structural code around them is translated from the source.
-/

set_option maxHeartbeats 1000000

namespace GraphiVault

/-! ## Session manager (`python_backend/core/session_manager.py`)

`SessionManager.__init__` stores a config dict with the defaults below and
a session-state record; the operations are translated method by method.
-/

/-- Configuration of `SessionManager` (`session_manager.py`, `__init__`),
with the source's default values. -/
structure SessionConfig where
  timeout_minutes : Nat := 30
  auto_lock : Bool := true
  max_failed_attempts : Nat := 3
  lockout_duration_minutes : Nat := 15
  session_renewal_threshold_minutes : Nat := 5
  deriving Repr, DecidableEq

/-- Mutable state of `SessionManager` (`session_manager.py`, `__init__`).
`password_hash` holds `hashFn` applied to the password (the source stores
`sha256(password).hexdigest()`; the hash function is a parameter of the
operations that use it). -/
structure SessionState where
  session_key : Option Nat := none
  session_start_time : Option Nat := none
  last_activity_time : Option Nat := none
  failed_attempts : Nat := 0
  lockout_until : Option Nat := none
  session_id : Option Nat := none
  password_hash : Option String := none
  session_validated : Bool := false
  deriving Repr, DecidableEq

/-- Source `SessionManager._is_locked_out`: true when `_lockout_until` is set
and the current time is still before it. -/
def isLockedOut (now : Nat) (st : SessionState) : Bool :=
  match st.lockout_until with
  | none => false
  | some u => now < u

/-- Source `SessionManager._is_session_expired`: no activity time means
expired; otherwise expired when `now - last_activity > timeout_minutes * 60`. -/
def isSessionExpired (cfg : SessionConfig) (now : Nat) (st : SessionState) : Bool :=
  match st.last_activity_time with
  | none => true
  | some t => cfg.timeout_minutes * 60 < now - t

/-- Source `SessionManager._cleanup_session`: clears key, password hash, id,
timestamps and the validated flag.  `failed_attempts` and `lockout_until`
are deliberately NOT touched by the source. -/
def cleanupSession (st : SessionState) : SessionState :=
  { st with session_key := none, password_hash := none, session_id := none,
            session_start_time := none, last_activity_time := none,
            session_validated := false }

/-- Source `SessionManager.create_session`: refused while locked out;
otherwise installs a fresh session (id and key are the drawn random values)
and resets `failed_attempts` and `lockout_until`. -/
def create_session (hashFn : String → String) (now : Nat) (sid key : Nat)
    (pw : String) (st : SessionState) : Option Nat × SessionState :=
  if isLockedOut now st then (none, st)
  else
    (some sid,
      { session_id := some sid
        session_key := some key
        password_hash := some (hashFn pw)
        session_start_time := some now
        last_activity_time := some now
        session_validated := true
        failed_attempts := 0
        lockout_until := none })

/-- Source `SessionManager.record_failed_attempt`: increments the counter;
on reaching `max_failed_attempts` it sets `lockout_until = now + duration`
and cleans the session up. -/
def record_failed_attempt (cfg : SessionConfig) (now : Nat)
    (st : SessionState) : SessionState :=
  if cfg.max_failed_attempts ≤ st.failed_attempts + 1 then
    cleanupSession
      { st with failed_attempts := st.failed_attempts + 1,
                lockout_until := some (now + cfg.lockout_duration_minutes * 60) }
  else { st with failed_attempts := st.failed_attempts + 1 }

/-- Source `SessionManager.validate_session`: id mismatch, missing session,
lockout and idle expiry all yield `False`; lockout and expiry additionally
clean the session up; success refreshes `last_activity_time`. -/
def validate_session (cfg : SessionConfig) (now : Nat) (sid : Option Nat)
    (st : SessionState) : Bool × SessionState :=
  if sid.isSome ∧ sid ≠ st.session_id then (false, st)
  else if ¬ st.session_validated ∨ st.session_key = none then (false, st)
  else if isLockedOut now st then (false, cleanupSession st)
  else if isSessionExpired cfg now st then (false, cleanupSession st)
  else (true, { st with last_activity_time := some now })

/-- Source `SessionManager._should_regenerate_key`: regenerate after one
hour of session duration. -/
def shouldRegenerateKey (now : Nat) (st : SessionState) : Bool :=
  match st.session_start_time with
  | none => false
  | some t0 => 3600 < now - t0

/-- Source `SessionManager.renew_session`: a wrong password records a failed
attempt (which can lock the vault out and destroy the session); with the
right password a validated session gets its activity time refreshed and
possibly a new key. -/
def renew_session (cfg : SessionConfig) (hashFn : String → String) (now : Nat)
    (newKey : Nat) (pw : String) (st : SessionState) : Bool × SessionState :=
  if some (hashFn pw) ≠ st.password_hash then
    (false, record_failed_attempt cfg now st)
  else if ¬ st.session_validated then (false, st)
  else if shouldRegenerateKey now { st with last_activity_time := some now } then
    (true, { st with last_activity_time := some now, session_key := some newKey })
  else (true, { st with last_activity_time := some now })

/-- Source `SessionManager.destroy_session`. -/
def destroy_session (st : SessionState) : SessionState :=
  cleanupSession st

/-! ## Core engine (`python_backend/core/core_engine.py`)

The data-plane state the claims are about: the session, the
`_is_initialized` flag, the `images` rows of the database
(`storage_interface.py`) and the blob / thumbnail files on disk.
-/

/-- The fields of an `images` row (`storage_interface.py`, `ImageRecord`)
that the claims depend on; `file_hash` is the SHA-512 hex digest of the
plaintext, here the value of the hash-function parameter. -/
structure ImageRow where
  id : Nat
  name : String
  file_hash : List Nat
  deriving Repr, DecidableEq

/-- State touched by the core engine: the `_is_initialized` flag and the
session (`core_engine.py`), the `images` table (`storage_interface.py`,
rows are only ever inserted by `store_image` and deleted by `delete_image`),
and the blob and thumbnail files on disk (named by image id). -/
structure CoreState where
  is_initialized : Bool := false
  session : SessionState := {}
  rows : List ImageRow := []
  blobs : List Nat := []
  thumbs : List Nat := []
  deriving Repr, DecidableEq

/-- Result of a core data-plane call: `notUnlocked` models the
`RuntimeError("Vault not initialized or unlocked")` raised when
`_is_initialized` is false; `ok` wraps the Python return value. -/
inductive CoreResult (α : Type) where
  | notUnlocked : CoreResult α
  | ok : α → CoreResult α
  deriving Repr, DecidableEq

/-- Source `GraphiVaultCore.unlock_vault`, restricted to its effect on the
modelled state (vault existence and parameter loading are assumed to
succeed; `pwOk` is the result of `crypto.verify_master_key`): a failed
verification records a failed attempt; a successful one creates a session,
and only if session creation succeeds is `_is_initialized` set. -/
def unlock_vault (cfg : SessionConfig) (hashFn : String → String)
    (now sid key : Nat) (pw : String) (pwOk : Bool)
    (st : CoreState) : Bool × CoreState :=
  if ¬ pwOk then (false, { st with session := record_failed_attempt cfg now st.session })
  else
    match create_session hashFn now sid key pw st.session with
    | (none, s') => (false, { st with session := s' })
    | (some _, s') => (true, { st with session := s', is_initialized := true })

/-- Source `GraphiVaultCore.lock_vault`: destroys the session and resets
`_is_initialized`. -/
def lock_vault (st : CoreState) : CoreState :=
  { st with session := destroy_session st.session, is_initialized := false }

/-- The session-level part of `GraphiVaultCore.unlock_vault`: `pwOk` is the
outcome of `crypto.verify_master_key`; failure records a failed attempt,
success attempts `create_session` (refused while locked out). -/
def unlockAttempt (cfg : SessionConfig) (hashFn : String → String)
    (now sid key : Nat) (pw : String) (pwOk : Bool)
    (st : SessionState) : Bool × SessionState :=
  if ¬ pwOk then (false, record_failed_attempt cfg now st)
  else
    match create_session hashFn now sid key pw st with
    | (none, s2) => (false, s2)
    | (some _, s2) => (true, s2)

/-- Per-call environment of `add_image`: the outcome of
`image_processor.validate_image`, of thumbnail creation, the success of the
database insert inside `storage.store_image`, and the freshly drawn uuid. -/
structure AddCtx where
  valid : Bool
  thumbOk : Bool
  dbOk : Bool
  newId : Nat
  deriving Repr, DecidableEq

/-- Source `GraphiVaultCore.add_image`.  Guard: only `_is_initialized` is
checked (no session or idle-expiry check appears in the source).  An invalid
image or a duplicate hash raises `ValueError`, which the enclosing
`except` turns into a `None` return with no state change.  Otherwise the
blob is written (`crypto.encrypt_file`), the optional thumbnail is written,
and `_store_image_record` calls `storage.store_image`, whose boolean result
is discarded: on a failed insert (`dbOk = false`) no row is stored but the
function still logs `image_added` and returns the record. -/
def add_image (hashFn : List Nat → List Nat) (ctx : AddCtx) (content : List Nat)
    (name : String) (st : CoreState) : CoreResult (Option ImageRow) × CoreState :=
  if ¬ st.is_initialized then (CoreResult.notUnlocked, st)
  else if ¬ ctx.valid then (CoreResult.ok none, st)
  else if st.rows.any (fun r => r.file_hash == hashFn content) then
    (CoreResult.ok none, st)
  else
    let row : ImageRow := { id := ctx.newId, name := name, file_hash := hashFn content }
    let st1 := { st with blobs := st.blobs ++ [ctx.newId] }
    let st2 := if ctx.thumbOk then { st1 with thumbs := st1.thumbs ++ [ctx.newId] } else st1
    let st3 := if ctx.dbOk then { st2 with rows := st2.rows ++ [row] } else st2
    (CoreResult.ok (some row), st3)

/-- Source `GraphiVaultCore.get_image` (metadata/blob-lookup skeleton; the
decrypted payload is stood for by the blob id).  Only `_is_initialized` is
checked before the lookup. -/
def get_image (st : CoreState) (imageId : Nat) (decrypt : Bool) :
    CoreResult (Option Nat) :=
  if ¬ st.is_initialized then CoreResult.notUnlocked
  else
    match st.rows.find? (fun r => r.id == imageId) with
    | none => CoreResult.ok none
    | some r =>
        if st.blobs.contains r.id then CoreResult.ok (some r.id)
        else CoreResult.ok none

/-- Source `GraphiVaultCore.delete_image`: only `_is_initialized` is
checked; on success the blob and thumbnail are securely deleted and the row
removed. -/
def delete_image (st : CoreState) (imageId : Nat) : CoreResult Bool × CoreState :=
  if ¬ st.is_initialized then (CoreResult.notUnlocked, st)
  else
    match st.rows.find? (fun r => r.id == imageId) with
    | none => (CoreResult.ok false, st)
    | some r =>
        (CoreResult.ok true,
          { st with blobs := st.blobs.filter (fun b => b ≠ r.id),
                    thumbs := st.thumbs.filter (fun b => b ≠ r.id),
                    rows := st.rows.filter (fun x => x.id ≠ imageId) })

/-- Source `GraphiVaultCore.search_images`: only `_is_initialized` is
checked; the records are filtered by the search engine's match predicate
(taken as a parameter). -/
def search_images (matchFn : ImageRow → Bool) (st : CoreState) :
    CoreResult (List ImageRow) :=
  if ¬ st.is_initialized then CoreResult.notUnlocked
  else CoreResult.ok (st.rows.filter matchFn)

/-! ## Crypto controller (`python_backend/crypto/crypto_controller.py`)

`derive` stands for `PBKDF2HMAC(SHA512, length=32, salt, iterations).derive`
as a pure function of salt and password; `ks` for the AES-256-GCM CTR
keystream of the session key and nonce; `tagOf` for the GCM authentication
tag of nonce and ciphertext under the session key.
-/

/-- Key state of `CryptoController` (`__init__`). -/
structure CryptoState where
  master_key : Option (List Nat) := none
  session_key : Option (List Nat) := none
  tag_keychain : Option (List Nat) := none
  key_derivation_salt : Option (List Nat) := none
  deriving Repr, DecidableEq

/-- Source `hmac.compare_digest` on byte strings: equality (its
constant-time behaviour is not observable here); unequal lengths compare
unequal. -/
def compare_digest (a b : List Nat) : Bool := a == b

/-- Source `CryptoController.load_crypto_params`: reads the key file and
stores the salt when one is present; `_master_key` is never assigned. -/
def load_crypto_params (salt : Option (List Nat)) (st : CryptoState) : CryptoState :=
  match salt with
  | some s => { st with key_derivation_salt := some s }
  | none => st

/-- Source `CryptoController.initialize_master_key`: draws a fresh salt,
derives the master key from the password, and draws session and tag keys
(the drawn random values are arguments). -/
def initialize_master_key (derive : List Nat → String → List Nat)
    (salt sessionKey tagKeychain : List Nat) (pw : String)
    (st : CryptoState) : CryptoState :=
  { st with key_derivation_salt := some salt
            master_key := some (derive salt pw)
            session_key := some sessionKey
            tag_keychain := some tagKeychain }

/-- Source `CryptoController.verify_master_key`: without a salt the answer
is `False`; otherwise the key derived from the offered password is compared
against the stored master key, read as the empty byte string when
`initialize_master_key` has never populated the master key. -/
def verify_master_key (derive : List Nat → String → List Nat)
    (st : CryptoState) (pw : String) : Bool :=
  match st.key_derivation_salt with
  | none => false
  | some salt => compare_digest (derive salt pw) (st.master_key.getD [])

/-- CTR-mode body of AES-256-GCM: byte `i` of the ciphertext is byte `i` of
the plaintext XORed with byte `i` of the keystream.  The source's 8 KiB
chunk loop concatenates `encryptor.update` outputs, which for GCM is
exactly this length-preserving stream. -/
def gcmBody (ks : Nat → Nat) (p : List Nat) : List Nat :=
  (List.range p.length).map (fun i => Nat.xor (p.getD i 0) (ks i))

/-- In-place overwrite of a slice of a file at `pos` (the source's
`outfile.seek(pos)` followed by `outfile.write(data)`). -/
def writeAt (file : List Nat) (pos : Nat) (data : List Nat) : List Nat :=
  file.take pos ++ data ++ file.drop (pos + data.length)

/-- Source `CryptoController.encrypt_file`: writes the 12-byte nonce, a
16-byte placeholder (sixteen bytes of value 48), the ciphertext chunks, then
seeks back to offset `len(nonce)` and overwrites the placeholder with the
GCM tag.  Returns the final file and the accumulated `encrypted_size`
(`len(nonce) + tag_size + sum of chunk lengths`). -/
def encrypt_file (ks : Nat → Nat) (tagOf : List Nat → List Nat → List Nat)
    (nonce : List Nat) (p : List Nat) : List Nat × Nat :=
  let ct := gcmBody ks p
  let file0 := nonce ++ List.replicate 16 48 ++ ct
  let file1 := writeAt file0 nonce.length (tagOf nonce ct)
  (file1, nonce.length + 16 + ct.length)

/-- Source `CryptoController.decrypt_file`: reads the 12-byte nonce and
16-byte tag, streams the rest through the decryptor into the output file,
and finalizes; GCM finalization recomputes the tag over the processed
ciphertext and compares it with the supplied one.  On a mismatch the
`except` branch deletes the partial output file and returns `False`; the
pair is the returned boolean and the final content of the output file
(`none` = the file does not exist). -/
def decrypt_file (ks : Nat → Nat) (tagOf : List Nat → List Nat → List Nat)
    (blob : List Nat) : Bool × Option (List Nat) :=
  let nonce := blob.take 12
  let tag := (blob.drop 12).take 16
  let ct := blob.drop 28
  if tagOf nonce ct == tag then (true, some (gcmBody ks ct)) else (false, none)

/-- Source `CryptoController.decrypt_file_to_memory`: same header parse and
tag verification; a failure raises `RuntimeError`, so the caller receives an
error and no bytes. -/
def decrypt_file_to_memory (ks : Nat → Nat) (tagOf : List Nat → List Nat → List Nat)
    (blob : List Nat) : Except String (List Nat) :=
  let nonce := blob.take 12
  let tag := (blob.drop 12).take 16
  let ct := blob.drop 28
  if tagOf nonce ct == tag then Except.ok (gcmBody ks ct)
  else Except.error "Decryption failed"

/-- Source `GraphiVaultCore.get_image` with `decrypt=True`, applied to a
blob file: `decrypt_file_to_memory` is called and any exception is caught,
turning the call into a `None` return. -/
def get_image_decrypted (ks : Nat → Nat) (tagOf : List Nat → List Nat → List Nat)
    (blob : List Nat) : Option (List Nat) :=
  match decrypt_file_to_memory ks tagOf blob with
  | Except.ok d => some d
  | Except.error _ => none

/-! ## Tag manager (`python_backend/utils/tag_manager.py`)

Tags are lists of characters.  `_normalize_tag` strips whitespace, lowers,
filters to the allowed alphabet and strips leading/trailing separators;
`_normalize_tags` drops empties, deduplicates preserving first occurrence,
and sorts.  `str.strip()` is modelled with the ASCII whitespace characters;
every character of the allowed alphabet is plain ASCII, so this choice does
not affect any normalized tag.  Python's `sorted` is a stable sort under
the code-point lexicographic order; since the deduplicated elements are
pairwise distinct, any sorting algorithm for that order produces the same
list, and `List.insertionSort` is used here.
-/

/-- Source `tag_manager._normalize_tag`: the retained alphabet. -/
def allowedChars : List Char := "abcdefghijklmnopqrstuvwxyz0123456789-_:/.".toList

/-- Source `tag_manager._normalize_tag`: the characters stripped from both
ends at the end by the final strip call. -/
def stripSeparators : List Char := "-_:/".toList

/-- ASCII whitespace stripped by `str.strip()`. -/
def pyWhitespace : List Char := [' ', '\t', '\n', '\r', Char.ofNat 11, Char.ofNat 12]

/-- Python `str.lstrip(cs)`: drop leading characters from `cs`. -/
def lstripOn (cs : List Char) (s : List Char) : List Char :=
  s.dropWhile (fun c => cs.contains c)

/-- Python `str.strip(cs)`: drop leading and trailing characters from `cs`. -/
def stripOn (cs : List Char) (s : List Char) : List Char :=
  ((lstripOn cs s).reverse.dropWhile (fun c => cs.contains c)).reverse

/-- Source `TagManager._normalize_tag` on a string argument: trim
whitespace, lower-case, keep only `allowedChars`, strip the separator
characters from both ends. -/
def normalize_tag (t : List Char) : List Char :=
  let n1 := (stripOn pyWhitespace t).map Char.toLower
  let n2 := n1.filter (fun c => allowedChars.contains c)
  stripOn stripSeparators n2

/-- The accumulation loop of `TagManager._normalize_tags`: keep a
normalized tag when it is non-empty and not yet present. -/
def normalize_tags_loop (acc : List (List Char)) : List (List Char) → List (List Char)
  | [] => acc
  | t :: ts =>
      if normalize_tag t ≠ [] ∧ normalize_tag t ∉ acc then
        normalize_tags_loop (acc ++ [normalize_tag t]) ts
      else normalize_tags_loop acc ts

/-- Source `TagManager._normalize_tags`: the loop followed by
`sorted(...)` under the code-point lexicographic order. -/
def normalize_tags (tags : List (List Char)) : List (List Char) :=
  (normalize_tags_loop [] tags).insertionSort (fun a b => a ≤ b)

/-- The JSON document encrypted by `TagManager.encrypt_tags`:
`{tags, created_at, version}`. -/
structure TagData where
  tags : List (List Char)
  created_at : String
  version : String
  deriving Repr, DecidableEq

/-- Source `TagManager.encrypt_tags`: normalize, build the document with
the version string 1.0, serialize and encrypt under the tag keychain.  The
composition of `json.dumps` and `crypto.encrypt_with_tag_keychain` is the
parameter `enc`; its pointwise inverse (AES-GCM decryption followed by
`json.loads`) is the parameter `dec` of `decrypt_tags`. -/
def encrypt_tags {β : Type} (enc : TagData → β) (createdAt : String)
    (tags : List (List Char)) : β :=
  enc { tags := normalize_tags tags, created_at := createdAt, version := "1.0" }

/-- Source `TagManager.decrypt_tags`: decrypt, parse, return the `tags`
field; any failure raises `RuntimeError`. -/
def decrypt_tags {β : Type} (dec : β → Option TagData) (blob : β) :
    Except String (List (List Char)) :=
  match dec blob with
  | some d => Except.ok d.tags
  | none => Except.error "Tag decryption failed"

/-! ## Audit logger (`python_backend/audit_logger.py`)

Log entries are JSON objects, modelled as association lists from string
keys to values (strings, numbers, or one level of nested object for the
`data` field — the shapes the logger actually writes).  `canonicalJson`
models `json.dumps(entry, sort_keys=True, ensure_ascii=False)`: keys sorted
by code point, `", "` and `": "` separators.  The SHA-256 hex digest is the
function parameter `sha`.
-/

/-- Scalar JSON values appearing in log entries. -/
inductive JScalar where
  | s : String → JScalar
  | num : Nat → JScalar
  deriving Repr, DecidableEq

/-- The flat object stored under the `data` key. -/
abbrev JObj := List (String × JScalar)

/-- A JSON value in a log entry: a scalar or the nested `data` object. -/
inductive JVal where
  | sc : JScalar → JVal
  | obj : JObj → JVal
  deriving Repr, DecidableEq

/-- A log entry: an association list of fields. -/
abbrev Entry := List (String × JVal)

/-- Key order used by `json.dumps(..., sort_keys=True)`: code-point
lexicographic order on the key strings. -/
def keyLe (a b : String) : Prop := a.toList ≤ b.toList

instance : DecidableRel keyLe :=
  fun a b => inferInstanceAs (Decidable (a.toList ≤ b.toList))

/-- Serialization of a scalar (string escaping is immaterial for the
claims: the hash producer and the checker serialize identically). -/
def renderScalar : JScalar → String
  | JScalar.s v => "\"" ++ v ++ "\""
  | JScalar.num v => toString v

/-- Serialization of the nested `data` object with sorted keys. -/
def renderObj (o : JObj) : String :=
  "\x7b" ++
    String.intercalate ", "
      ((o.insertionSort (fun kv kv' => keyLe kv.1 kv'.1)).map
        (fun kv => "\"" ++ kv.1 ++ "\": " ++ renderScalar kv.2)) ++
    "\x7d"

/-- Serialization of a field value. -/
def renderVal : JVal → String
  | JVal.sc v => renderScalar v
  | JVal.obj o => renderObj o

/-- Model of `json.dumps(entry, sort_keys=True, ensure_ascii=False)`. -/
def canonicalJson (e : Entry) : String :=
  "\x7b" ++
    String.intercalate ", "
      ((e.insertionSort (fun kv kv' => keyLe kv.1 kv'.1)).map
        (fun kv => "\"" ++ kv.1 ++ "\": " ++ renderVal kv.2)) ++
    "\x7d"

/-- Source `AuditLogger._calculate_entry_hash`: copy the entry, pop
`integrity_hash`, dump with sorted keys, SHA-256, keep the first 32 hex
characters. -/
def calc_entry_hash (sha : String → String) (e : Entry) : String :=
  ((sha (canonicalJson (e.filter (fun kv => kv.1 != "integrity_hash")))).toList.take
    32).asString

/-- Source `AuditLogger._create_log_entry`: the five base fields (with
`data` already passed through `_sanitize_event_data`) plus the
`integrity_hash` computed over them. -/
def create_log_entry (sha : String → String) (ts : String) (tsu : Nat)
    (etype sid : String) (data : JObj) : Entry :=
  let base : Entry :=
    [("timestamp", JVal.sc (JScalar.s ts)),
     ("timestamp_unix", JVal.sc (JScalar.num tsu)),
     ("event_type", JVal.sc (JScalar.s etype)),
     ("session_id", JVal.sc (JScalar.s sid)),
     ("data", JVal.obj data)]
  base ++ [("integrity_hash", JVal.sc (JScalar.s (calc_entry_hash sha base)))]

/-- Source `AuditLogger._initialize_log_file`: every fresh log file (on
creation and after each rotation, since `_rotate_log_files` ends by calling
`_initialize_log_file`) starts with this header entry; note that no
`integrity_hash` field is written. -/
def initialize_log_file (ts : String) : List Entry :=
  [[("timestamp", JVal.sc (JScalar.s ts)),
    ("event_type", JVal.sc (JScalar.s "log_initialized")),
    ("version", JVal.sc (JScalar.s "1.0")),
    ("max_size_bytes", JVal.sc (JScalar.num 10485760))]]

/-- Source `AuditLogger.log_event`: append the created entry to the current
log file (the rotation branch only replaces the current file with a fresh
`initialize_log_file` before appending). -/
def log_event (sha : String → String) (ts : String) (tsu : Nat)
    (etype sid : String) (data : JObj) (file : List Entry) : List Entry :=
  file ++ [create_log_entry sha ts tsu etype sid data]

/-- The integrity property claimed for a single log entry: the
`integrity_hash` field exists and equals the truncated hash of the
canonical serialization of the entry without that field. -/
def entryHashOk (sha : String → String) (e : Entry) : Prop :=
  e.lookup "integrity_hash" = some (JVal.sc (JScalar.s (calc_entry_hash sha e)))

/-! ## Verification predicates -/

/-- Invariant of the session state machine: a validated session never
coexists with a pending lockout stamp, and a session that is not validated
holds no session key. -/
def SessionInv (st : SessionState) : Prop :=
  (st.session_validated = true → st.lockout_until = none)
  ∧ (st.session_validated = false → st.session_key = none)

/-! ## Theorems -/

/-- C4: `verify_master_key` can return `True` only when a prior
`initialize_master_key` populated `_master_key` in this process.  After
`load_crypto_params` (which loads salt and KDF parameters but never the
master key), verification of every password fails, because the derived
32-byte key is compared against the empty byte string.  `derive` is
PBKDF2-HMAC-SHA512 with output length 32, so every derived key has length
32. -/
theorem C4_verify_requires_initialize (derive : List Nat → String → List Nat)
    (hlen : ∀ s pw, (derive s pw).length = 32)
    (st : CryptoState) (salt : Option (List Nat)) (pw : String)
    (hmk : st.master_key = none) :
    verify_master_key derive (load_crypto_params salt st) pw = false := by
  have hmk2 : (load_crypto_params salt st).master_key = none := by
    cases salt <;> simpa [load_crypto_params] using hmk
  unfold verify_master_key
  cases hsalt : (load_crypto_params salt st).key_derivation_salt with
  | none => rfl
  | some s =>
      rw [hmk2]
      simp only [Option.getD_none, compare_digest, beq_eq_false_iff_ne, ne_eq]
      intro h
      have hl := hlen s pw
      rw [h] at hl
      simp at hl

/-- Witness for C4 at a concrete instance. -/
theorem C4_witness :
    verify_master_key (fun _ _ => List.replicate 32 0)
      (load_crypto_params (some [1, 2, 3]) {}) "password" = false :=
  C4_verify_requires_initialize (fun _ _ => List.replicate 32 0)
    (fun _ _ => by simp) {} (some [1, 2, 3]) "password" rfl

/-- Length of the GCM ciphertext body equals the plaintext length. -/
theorem gcmBody_length (ks : Nat → Nat) (p : List Nat) :
    (gcmBody ks p).length = p.length := by
  simp [gcmBody]

/-- Decomposition of the blob written by `encrypt_file`: the seek-back
overwrite of the placeholder yields `nonce ++ tag ++ ciphertext`. -/
theorem encrypt_file_fst_eq (ks : Nat → Nat)
    (tagOf : List Nat → List Nat → List Nat) (nonce p : List Nat)
    (hn : nonce.length = 12)
    (ht : (tagOf nonce (gcmBody ks p)).length = 16) :
    (encrypt_file ks tagOf nonce p).1
      = nonce ++ tagOf nonce (gcmBody ks p) ++ gcmBody ks p := by
  show writeAt (nonce ++ List.replicate 16 48 ++ gcmBody ks p) nonce.length
      (tagOf nonce (gcmBody ks p)) = _
  unfold writeAt
  rw [hn, ht]
  have h1 : List.take 12 (nonce ++ List.replicate 16 48 ++ gcmBody ks p)
      = nonce := by
    rw [List.append_assoc]
    exact List.take_left' hn
  have h2 : List.drop 28 (nonce ++ List.replicate 16 48 ++ gcmBody ks p)
      = gcmBody ks p := by
    apply List.drop_left'
    simp [hn]
  rw [h1, h2, List.append_assoc]

/-- C5: for a plaintext of `n` bytes, `encrypt_file` writes a blob of
exactly `n + 28` bytes laid out as the 12-byte nonce, then the 16-byte GCM
tag, then the `n` ciphertext bytes, and returns `n + 28` as the encrypted
size.  The hypotheses record that the drawn nonce has 12 bytes and the GCM
tag 16 bytes, as in the source configuration. -/
theorem C5_encrypt_file_blob_layout (ks : Nat → Nat)
    (tagOf : List Nat → List Nat → List Nat) (nonce p : List Nat)
    (hn : nonce.length = 12)
    (ht : (tagOf nonce (gcmBody ks p)).length = 16) :
    (encrypt_file ks tagOf nonce p).2 = p.length + 28
    ∧ (encrypt_file ks tagOf nonce p).1
        = nonce ++ tagOf nonce (gcmBody ks p) ++ gcmBody ks p
    ∧ (encrypt_file ks tagOf nonce p).1.length = p.length + 28
    ∧ (encrypt_file ks tagOf nonce p).1.take 12 = nonce
    ∧ ((encrypt_file ks tagOf nonce p).1.drop 12).take 16
        = tagOf nonce (gcmBody ks p)
    ∧ (encrypt_file ks tagOf nonce p).1.drop 28 = gcmBody ks p
    ∧ (gcmBody ks p).length = p.length := by
  have hct : (gcmBody ks p).length = p.length := gcmBody_length ks p
  have hfile := encrypt_file_fst_eq ks tagOf nonce p hn ht
  refine ⟨?_, hfile, ?_, ?_, ?_, ?_, hct⟩
  · show nonce.length + 16 + (gcmBody ks p).length = p.length + 28
    rw [hn, hct]; omega
  · rw [hfile]; simp [hn, ht, hct]; omega
  · rw [hfile, List.append_assoc]
    exact List.take_left' hn
  · rw [hfile, List.append_assoc, List.drop_left' hn]
    exact List.take_left' ht
  · rw [hfile]
    apply List.drop_left'
    simp [hn, ht]

/-- Witness for C5 at a concrete instance: a 3-byte plaintext yields a
31-byte blob with the stated layout. -/
theorem C5_witness :
    ((List.replicate 12 0 : List Nat).length = 12)
    ∧ (encrypt_file (fun i => i) (fun _ _ => List.replicate 16 7)
        (List.replicate 12 0) [1, 2, 3]).2 = 3 + 28
    ∧ (encrypt_file (fun i => i) (fun _ _ => List.replicate 16 7)
        (List.replicate 12 0) [1, 2, 3]).1
        = List.replicate 12 0 ++ List.replicate 16 7
            ++ gcmBody (fun i => i) [1, 2, 3] := by
  have h := C5_encrypt_file_blob_layout (fun i => i)
    (fun _ _ => List.replicate 16 7) (List.replicate 12 0) [1, 2, 3]
    (by decide) (by decide)
  exact ⟨by decide, h.1, h.2.1⟩

/-- C2, counterexample: with the default configuration, after three failed
attempts at time 0 the lockout ends at time 900; the claim says that at
`now ≥ until` the state returns to `Locked` with `failed_attempts` reset to
0, so that a new lockout requires three fresh failures.  In the code
`failed_attempts` is still 3 once the lockout has expired, and a single
further failed attempt at time 900 immediately re-enters lockout. -/
theorem C2_counterexample :
    isLockedOut 900
        (record_failed_attempt {} 0 (record_failed_attempt {} 0
          (record_failed_attempt {} 0 {}))) = false
    ∧ (record_failed_attempt {} 0 (record_failed_attempt {} 0
          (record_failed_attempt {} 0 {}))).failed_attempts = 3
    ∧ isLockedOut 901
        (record_failed_attempt {} 900
          (record_failed_attempt {} 0 (record_failed_attempt {} 0
            (record_failed_attempt {} 0 {})))) = true := by
  decide

/-- C2, amended: reaching `max_failed_attempts` consecutive failed unlock
attempts enters lockout until `now + lockout_duration` and destroys any
session; while locked out every unlock attempt fails, even with the correct
password; once `now ≥ until`, an unlock with the correct password succeeds
and resets `failed_attempts` to 0 and clears the lockout stamp — but the
mere expiry of the lockout does not reset `failed_attempts`, so a state
still at the threshold re-enters lockout after one single further failed
attempt. -/
theorem C2_lockout_behavior (cfg : SessionConfig) (hashFn : String → String)
    (st : SessionState) (now u sid key : Nat) (pw : String)
    (hmax : cfg.max_failed_attempts ≤ st.failed_attempts + 1) :
    ((record_failed_attempt cfg now st).lockout_until
        = some (now + cfg.lockout_duration_minutes * 60)
      ∧ (record_failed_attempt cfg now st).session_validated = false)
    ∧ (∀ st2 now2 pwOk, st2.lockout_until = some u → now2 < u →
        (unlockAttempt cfg hashFn now2 sid key pw pwOk st2).1 = false)
    ∧ (∀ st2 now2, st2.lockout_until = some u → u ≤ now2 →
        (unlockAttempt cfg hashFn now2 sid key pw true st2).1 = true
        ∧ (unlockAttempt cfg hashFn now2 sid key pw true st2).2.failed_attempts = 0
        ∧ (unlockAttempt cfg hashFn now2 sid key pw true st2).2.lockout_until = none)
    ∧ (∀ st2 now2, st2.lockout_until = some u → u ≤ now2 →
        cfg.max_failed_attempts ≤ st2.failed_attempts + 1 →
        (unlockAttempt cfg hashFn now2 sid key pw false st2).2.lockout_until
          = some (now2 + cfg.lockout_duration_minutes * 60)) := by
  refine ⟨⟨?_, ?_⟩, ?_, ?_, ?_⟩
  · simp only [record_failed_attempt, if_pos hmax]; rfl
  · simp only [record_failed_attempt, if_pos hmax]; rfl
  · intro st2 now2 pwOk hu hlt
    have hlock : isLockedOut now2 st2 = true := by
      simp [isLockedOut, hu, hlt]
    cases pwOk with
    | false => simp [unlockAttempt]
    | true => simp [unlockAttempt, create_session, hlock]
  · intro st2 now2 hu hle
    have hlock : isLockedOut now2 st2 = false := by
      simp [isLockedOut, hu]; omega
    refine ⟨?_, ?_, ?_⟩ <;> simp [unlockAttempt, create_session, hlock]
  · intro st2 now2 hu hle hmax2
    simp [unlockAttempt, record_failed_attempt, if_pos hmax2, cleanupSession]

/-- Witness for C2 at a concrete instance: the default configuration, a
state with two prior failures, a lockout stamp at 900. -/
theorem C2_witness :
    (({} : SessionConfig).max_failed_attempts ≤ 2 + 1)
    ∧ ((record_failed_attempt {} 5 { failed_attempts := 2 }).lockout_until
          = some (5 + 15 * 60)
        ∧ (record_failed_attempt {} 5
            { failed_attempts := 2 }).session_validated = false)
    ∧ (∀ st2 now2 pwOk, st2.lockout_until = some 900 → now2 < 900 →
        (unlockAttempt {} (fun s => s) now2 7 9 "pw" pwOk st2).1 = false)
    ∧ (∀ st2 now2, st2.lockout_until = some 900 → 900 ≤ now2 →
        (unlockAttempt {} (fun s => s) now2 7 9 "pw" true st2).1 = true
        ∧ (unlockAttempt {} (fun s => s) now2 7 9 "pw" true st2).2.failed_attempts = 0
        ∧ (unlockAttempt {} (fun s => s) now2 7 9 "pw" true st2).2.lockout_until = none)
    ∧ (∀ st2 now2, st2.lockout_until = some 900 → 900 ≤ now2 →
        ({} : SessionConfig).max_failed_attempts ≤ st2.failed_attempts + 1 →
        (unlockAttempt {} (fun s => s) now2 7 9 "pw" false st2).2.lockout_until
          = some (now2 + ({} : SessionConfig).lockout_duration_minutes * 60)) := by
  have h := C2_lockout_behavior {} (fun s => s) { failed_attempts := 2 }
    5 900 7 9 "pw" (by decide)
  exact ⟨by decide, h.1, h.2.1, h.2.2.1, h.2.2.2⟩

/-- C1: after an unlock at time 0 with the default 30-minute timeout, the
session is idle-expired at time 1801, yet every data-plane operation still
goes through, because `add_image`, `get_image`, `search_images` and
`delete_image` only test `_is_initialized`, which no idle-expiry path ever
resets; the claimed conversion of the call into `NotUnlocked` does not
happen. -/
theorem C1_idle_expiry_not_enforced :
    (unlock_vault {} (fun s => s) 0 7 9 "pw" true
        { rows := [{ id := 1, name := "a.jpg", file_hash := [1] }],
          blobs := [1] }).1 = true
    ∧ isSessionExpired {} 1801
        (unlock_vault {} (fun s => s) 0 7 9 "pw" true
          { rows := [{ id := 1, name := "a.jpg", file_hash := [1] }],
            blobs := [1] }).2.session = true
    ∧ get_image
        (unlock_vault {} (fun s => s) 0 7 9 "pw" true
          { rows := [{ id := 1, name := "a.jpg", file_hash := [1] }],
            blobs := [1] }).2 1 true = CoreResult.ok (some 1)
    ∧ (add_image (fun c => c) { valid := true, thumbOk := true, dbOk := true, newId := 2 }
        [5] "b.jpg"
        (unlock_vault {} (fun s => s) 0 7 9 "pw" true
          { rows := [{ id := 1, name := "a.jpg", file_hash := [1] }],
            blobs := [1] }).2).1
        = CoreResult.ok (some { id := 2, name := "b.jpg", file_hash := [5] })
    ∧ search_images (fun _ => true)
        (unlock_vault {} (fun s => s) 0 7 9 "pw" true
          { rows := [{ id := 1, name := "a.jpg", file_hash := [1] }],
            blobs := [1] }).2
        = CoreResult.ok [{ id := 1, name := "a.jpg", file_hash := [1] }]
    ∧ (delete_image
        (unlock_vault {} (fun s => s) 0 7 9 "pw" true
          { rows := [{ id := 1, name := "a.jpg", file_hash := [1] }],
            blobs := [1] }).2 1).1 = CoreResult.ok true := by
  decide

/-- C3: with the vault unlocked, a valid non-duplicate image and a failing
database insert (`store_image` catching its exception and returning
`False`, which `_store_image_record` discards), `add_image` still reports
success with the record, the encrypted blob and the thumbnail remain on
disk, and no `images` row exists — the claimed compensation (delete blob
and thumbnail, propagate the error) does not happen. -/
theorem C3_insert_failure_no_compensation :
    (add_image (fun c => c)
        { valid := true, thumbOk := true, dbOk := false, newId := 5 }
        [9, 9] "b.jpg" { is_initialized := true }).1
      = CoreResult.ok (some { id := 5, name := "b.jpg", file_hash := [9, 9] })
    ∧ (add_image (fun c => c)
        { valid := true, thumbOk := true, dbOk := false, newId := 5 }
        [9, 9] "b.jpg" { is_initialized := true }).2.blobs = [5]
    ∧ (add_image (fun c => c)
        { valid := true, thumbOk := true, dbOk := false, newId := 5 }
        [9, 9] "b.jpg" { is_initialized := true }).2.thumbs = [5]
    ∧ (add_image (fun c => c)
        { valid := true, thumbOk := true, dbOk := false, newId := 5 }
        [9, 9] "b.jpg" { is_initialized := true }).2.rows = [] := by
  decide

/-- C6: on an unlocked vault with a working database, `add_image` is
rejected exactly when a record with the same plaintext hash already exists
(deleted records are gone from the table, so every present row is
non-deleted); a fresh hash stores exactly one row and one blob for that
content, and a second `add_image` of byte-identical content fails without
touching the state. -/
theorem C6_duplicate_rejection (hashFn : List Nat → List Nat)
    (ctx ctx2 : AddCtx) (content : List Nat) (name name2 : String)
    (st : CoreState) (hinit : st.is_initialized = true)
    (hvalid : ctx.valid = true) (hdb : ctx.dbOk = true)
    (hvalid2 : ctx2.valid = true) :
    ((∃ r ∈ st.rows, r.file_hash = hashFn content) →
        add_image hashFn ctx content name st = (CoreResult.ok none, st))
    ∧ ((∀ r ∈ st.rows, r.file_hash ≠ hashFn content) →
        (add_image hashFn ctx content name st).1
          = CoreResult.ok
              (some { id := ctx.newId, name := name, file_hash := hashFn content })
        ∧ (add_image hashFn ctx content name st).2.rows
          = st.rows ++ [{ id := ctx.newId, name := name, file_hash := hashFn content }]
        ∧ (add_image hashFn ctx content name st).2.blobs = st.blobs ++ [ctx.newId]
        ∧ ((add_image hashFn ctx content name st).2.rows.filter
            (fun r => r.file_hash == hashFn content)).length = 1
        ∧ add_image hashFn ctx2 content name2 (add_image hashFn ctx content name st).2
          = (CoreResult.ok none, (add_image hashFn ctx content name st).2)) := by
  constructor
  · rintro ⟨r, hr, hhash⟩
    have hdup : st.rows.any (fun r => r.file_hash == hashFn content) = true := by
      rw [List.any_eq_true]
      exact ⟨r, hr, by simp [hhash]⟩
    simp [add_image, hinit, hvalid, hdup]
  · intro hfresh
    have hdup : st.rows.any (fun r => r.file_hash == hashFn content) = false := by
      rw [List.any_eq_false]
      intro r hr
      simp [hfresh r hr]
    have hmain : add_image hashFn ctx content name st
        = (CoreResult.ok
            (some { id := ctx.newId, name := name, file_hash := hashFn content }),
           { st with
              blobs := st.blobs ++ [ctx.newId]
              thumbs := if ctx.thumbOk then st.thumbs ++ [ctx.newId] else st.thumbs
              rows := st.rows
                ++ [{ id := ctx.newId, name := name, file_hash := hashFn content }] }) := by
      cases hth : ctx.thumbOk <;>
        simp [add_image, hinit, hvalid, hdup, hdb, hth]
    rw [hmain]
    have hfilter : (st.rows.filter (fun r => r.file_hash == hashFn content)) = [] := by
      rw [List.filter_eq_nil_iff]
      intro r hr
      simp [hfresh r hr]
    refine ⟨rfl, rfl, rfl, ?_, ?_⟩
    · rw [List.filter_append, hfilter]
      simp
    · have hdup2 : (st.rows
          ++ [({ id := ctx.newId, name := name,
                 file_hash := hashFn content } : ImageRow)]).any
            (fun r => r.file_hash == hashFn content) = true := by
        rw [List.any_eq_true]
        exact ⟨⟨ctx.newId, name, hashFn content⟩, by simp, by simp⟩
      simp [add_image, hinit, hvalid2, hdup2]

/-- Witness for C6 at a concrete instance: empty vault, two adds of the
same two-byte content. -/
theorem C6_witness :
    ((∃ r ∈ ({ is_initialized := true } : CoreState).rows,
        r.file_hash = [4, 4]) →
      add_image (fun c => c) { valid := true, thumbOk := false, dbOk := true, newId := 1 }
        [4, 4] "x.png" { is_initialized := true }
        = (CoreResult.ok none, { is_initialized := true }))
    ∧ ((∀ r ∈ ({ is_initialized := true } : CoreState).rows,
          r.file_hash ≠ [4, 4]) →
        (add_image (fun c => c)
          { valid := true, thumbOk := false, dbOk := true, newId := 1 }
          [4, 4] "x.png" { is_initialized := true }).1
          = CoreResult.ok (some { id := 1, name := "x.png", file_hash := [4, 4] })
        ∧ (add_image (fun c => c)
            { valid := true, thumbOk := false, dbOk := true, newId := 1 }
            [4, 4] "x.png" { is_initialized := true }).2.rows
          = ({ is_initialized := true } : CoreState).rows
              ++ [{ id := 1, name := "x.png", file_hash := [4, 4] }]
        ∧ (add_image (fun c => c)
            { valid := true, thumbOk := false, dbOk := true, newId := 1 }
            [4, 4] "x.png" { is_initialized := true }).2.blobs
          = ({ is_initialized := true } : CoreState).blobs ++ [1]
        ∧ ((add_image (fun c => c)
            { valid := true, thumbOk := false, dbOk := true, newId := 1 }
            [4, 4] "x.png" { is_initialized := true }).2.rows.filter
              (fun r => r.file_hash == [4, 4])).length = 1
        ∧ add_image (fun c => c)
            { valid := true, thumbOk := false, dbOk := true, newId := 2 }
            [4, 4] "y.png"
            (add_image (fun c => c)
              { valid := true, thumbOk := false, dbOk := true, newId := 1 }
              [4, 4] "x.png" { is_initialized := true }).2
          = (CoreResult.ok none,
             (add_image (fun c => c)
              { valid := true, thumbOk := false, dbOk := true, newId := 1 }
              [4, 4] "x.png" { is_initialized := true }).2)) :=
  C6_duplicate_rejection (fun c => c)
    { valid := true, thumbOk := false, dbOk := true, newId := 1 }
    { valid := true, thumbOk := false, dbOk := true, newId := 2 }
    [4, 4] "x.png" "y.png" { is_initialized := true } rfl rfl rfl rfl

/-- C10: the session-state invariant — a validated session never coexists
with a lockout stamp, and an unvalidated session holds no key — holds of
the initial state and is preserved by every operation; consequently, while
a lockout is in effect no validated session exists, `validate_session`
returns `False`, `record_failed_attempt` at the threshold destroys any
active session, and a wrong password given to `renew_session` while
unlocked can terminate the running session. -/
theorem C10_no_session_during_lockout (cfg : SessionConfig)
    (hashFn : String → String) (st : SessionState)
    (now sid key newKey : Nat) (osid : Option Nat) (pw : String)
    (hinv : SessionInv st) :
    SessionInv ({} : SessionState)
    ∧ SessionInv (create_session hashFn now sid key pw st).2
    ∧ SessionInv (validate_session cfg now osid st).2
    ∧ SessionInv (renew_session cfg hashFn now newKey pw st).2
    ∧ SessionInv (record_failed_attempt cfg now st)
    ∧ SessionInv (destroy_session st)
    ∧ (isLockedOut now st = true →
        st.session_validated = false ∧ st.session_key = none
        ∧ (validate_session cfg now osid st).1 = false
        ∧ (validate_session cfg now osid st).2.session_validated = false)
    ∧ (cfg.max_failed_attempts ≤ st.failed_attempts + 1 →
        (record_failed_attempt cfg now st).session_validated = false
        ∧ (record_failed_attempt cfg now st).session_key = none)
    ∧ (some (hashFn pw) ≠ st.password_hash →
        cfg.max_failed_attempts ≤ st.failed_attempts + 1 →
        (renew_session cfg hashFn now newKey pw st).1 = false
        ∧ (renew_session cfg hashFn now newKey pw st).2.session_validated = false) := by
  obtain ⟨hinv1, hinv2⟩ := hinv
  have hrecord : SessionInv (record_failed_attempt cfg now st) := by
    unfold record_failed_attempt
    split
    · exact ⟨fun h => by simp [cleanupSession] at h, fun _ => rfl⟩
    · exact ⟨hinv1, hinv2⟩
  have hvalidated_of_lockout : isLockedOut now st = true →
      st.session_validated = false := by
    intro hlk
    cases hval : st.session_validated with
    | false => rfl
    | true =>
        have := hinv1 hval
        simp [isLockedOut, this] at hlk
  refine ⟨?_, ?_, ?_, ?_, hrecord, ?_, ?_, ?_, ?_⟩
  · exact ⟨fun _ => rfl, fun _ => rfl⟩
  · unfold create_session
    split
    · exact ⟨hinv1, hinv2⟩
    · exact ⟨fun _ => rfl, fun h => by simp at h⟩
  · unfold validate_session
    split
    · exact ⟨hinv1, hinv2⟩
    · split
      · exact ⟨hinv1, hinv2⟩
      · split
        · exact ⟨fun h => by simp [cleanupSession] at h, fun _ => rfl⟩
        · split
          · exact ⟨fun h => by simp [cleanupSession] at h, fun _ => rfl⟩
          · exact ⟨fun h => hinv1 h, fun h => hinv2 h⟩
  · unfold renew_session
    split
    · exact hrecord
    · split
      · exact ⟨hinv1, hinv2⟩
      · rename_i hval
        rw [not_not] at hval
        split
        · exact ⟨fun _ => hinv1 hval, fun h => by simp [hval] at h⟩
        · exact ⟨fun _ => hinv1 hval, fun h => by simp [hval] at h⟩
  · exact ⟨fun h => by simp [destroy_session, cleanupSession] at h, fun _ => rfl⟩
  · intro hlk
    have hval := hvalidated_of_lockout hlk
    have hkey := hinv2 hval
    refine ⟨hval, hkey, ?_, ?_⟩ <;>
      · unfold validate_session
        split
        · simp [hval]
        · split
          · simp [hval]
          · rename_i h1 h2
            exact absurd (Or.inl (by simp [hval])) h2
  · intro hmax
    unfold record_failed_attempt
    rw [if_pos (by simpa using hmax)]
    exact ⟨rfl, rfl⟩
  · intro hpw hmax
    unfold renew_session
    rw [if_pos hpw]
    refine ⟨rfl, ?_⟩
    unfold record_failed_attempt
    rw [if_pos (by simpa using hmax)]
    rfl

/-- Witness for C10 at a concrete instance: a locked-out, cleaned state
satisfying the invariant. -/
theorem C10_witness :
    SessionInv { lockout_until := some 900, failed_attempts := 3 }
    ∧ (SessionInv ({} : SessionState)
      ∧ SessionInv (create_session (fun s => s) 10 7 9 "pw"
          { lockout_until := some 900, failed_attempts := 3 }).2
      ∧ SessionInv (validate_session {} 10 (some 7)
          { lockout_until := some 900, failed_attempts := 3 }).2
      ∧ SessionInv (renew_session {} (fun s => s) 10 9 "pw"
          { lockout_until := some 900, failed_attempts := 3 }).2
      ∧ SessionInv (record_failed_attempt {} 10
          { lockout_until := some 900, failed_attempts := 3 })
      ∧ SessionInv (destroy_session
          { lockout_until := some 900, failed_attempts := 3 })
      ∧ (isLockedOut 10 { lockout_until := some 900, failed_attempts := 3 } = true →
          ({ lockout_until := some 900,
             failed_attempts := 3 } : SessionState).session_validated = false
          ∧ ({ lockout_until := some 900,
               failed_attempts := 3 } : SessionState).session_key = none
          ∧ (validate_session {} 10 (some 7)
              { lockout_until := some 900, failed_attempts := 3 }).1 = false
          ∧ (validate_session {} 10 (some 7)
              { lockout_until := some 900,
                failed_attempts := 3 }).2.session_validated = false)
      ∧ (({} : SessionConfig).max_failed_attempts ≤ 3 + 1 →
          (record_failed_attempt {} 10
            { lockout_until := some 900, failed_attempts := 3 }).session_validated = false
          ∧ (record_failed_attempt {} 10
              { lockout_until := some 900, failed_attempts := 3 }).session_key = none)
      ∧ (some ((fun s => s) "pw")
            ≠ ({ lockout_until := some 900,
                 failed_attempts := 3 } : SessionState).password_hash →
          ({} : SessionConfig).max_failed_attempts ≤ 3 + 1 →
          (renew_session {} (fun s => s) 10 9 "pw"
            { lockout_until := some 900, failed_attempts := 3 }).1 = false
          ∧ (renew_session {} (fun s => s) 10 9 "pw"
              { lockout_until := some 900,
                failed_attempts := 3 }).2.session_validated = false)) :=
  ⟨⟨fun h => by simp at h, fun _ => rfl⟩,
   C10_no_session_during_lockout {} (fun s => s)
     { lockout_until := some 900, failed_attempts := 3 } 10 7 9 9 (some 7) "pw"
     ⟨fun h => by simp at h, fun _ => rfl⟩⟩

/-- C7: starting from a validly written blob, change one byte at an offset
`i ≥ 12` (tag or ciphertext region).  For `12 ≤ i < 28` the stored tag no
longer matches the tag recomputed over the unchanged ciphertext, with no
further assumption; for `i ≥ 28` the hypothesis `hforge` states that the
recomputed GCM tag of the modified ciphertext differs from the stored one
(tag forgery does not happen — the AEAD security property of AES-GCM).  In
every case `decrypt_file` returns failure with the partial output file
deleted, `decrypt_file_to_memory` raises, and `get_image` with
`decrypt=True` returns `None`: the caller never receives any plaintext. -/
theorem C7_tamper_detection (ks : Nat → Nat)
    (tagOf : List Nat → List Nat → List Nat) (nonce p : List Nat)
    (i b : Nat) (hn : nonce.length = 12)
    (htag : ∀ n c, (tagOf n c).length = 16) (hi : 12 ≤ i)
    (hilt : i < (encrypt_file ks tagOf nonce p).1.length)
    (hb : (encrypt_file ks tagOf nonce p).1.getD i 0 ≠ b)
    (hforge : 28 ≤ i →
      tagOf nonce (((encrypt_file ks tagOf nonce p).1.set i b).drop 28)
        ≠ tagOf nonce (gcmBody ks p)) :
    decrypt_file ks tagOf ((encrypt_file ks tagOf nonce p).1.set i b)
      = (false, none)
    ∧ decrypt_file_to_memory ks tagOf ((encrypt_file ks tagOf nonce p).1.set i b)
        = Except.error "Decryption failed"
    ∧ get_image_decrypted ks tagOf ((encrypt_file ks tagOf nonce p).1.set i b)
        = none := by
  have hblob := encrypt_file_fst_eq ks tagOf nonce p hn (htag nonce (gcmBody ks p))
  have hctlen : (gcmBody ks p).length = p.length := gcmBody_length ks p
  have htglen : (tagOf nonce (gcmBody ks p)).length = 16 := htag nonce (gcmBody ks p)
  have hhead : (nonce ++ tagOf nonce (gcmBody ks p)).length = 28 := by
    simp [hn, htglen]
  -- the three observations decrypt makes on the modified blob
  have hcheck :
      (tagOf (((encrypt_file ks tagOf nonce p).1.set i b).take 12)
          (((encrypt_file ks tagOf nonce p).1.set i b).drop 28)
        == (((encrypt_file ks tagOf nonce p).1.set i b).drop 12).take 16)
        = false := by
    rw [hblob] at hb ⊢
    by_cases hc : i < 28
    · -- the modified byte lies in the stored tag
      have hset : ((nonce ++ tagOf nonce (gcmBody ks p)) ++ gcmBody ks p).set i b
          = (nonce ++ (tagOf nonce (gcmBody ks p)).set (i - 12) b) ++ gcmBody ks p := by
        rw [List.set_append, if_pos (by omega : i < (nonce ++ tagOf nonce (gcmBody ks p)).length),
            List.set_append, if_neg (by omega : ¬ i < nonce.length), hn]
      have hsetlen : ((tagOf nonce (gcmBody ks p)).set (i - 12) b).length = 16 := by
        simp [htglen]
      have htake12 : ((nonce ++ (tagOf nonce (gcmBody ks p)).set (i - 12) b)
          ++ gcmBody ks p).take 12 = nonce := by
        rw [List.append_assoc]
        exact List.take_left' hn
      have hdrop28 : ((nonce ++ (tagOf nonce (gcmBody ks p)).set (i - 12) b)
          ++ gcmBody ks p).drop 28 = gcmBody ks p := by
        apply List.drop_left'
        simp [hn, hsetlen]
      have hdrop12 : ((nonce ++ (tagOf nonce (gcmBody ks p)).set (i - 12) b)
          ++ gcmBody ks p).drop 12
          = (tagOf nonce (gcmBody ks p)).set (i - 12) b ++ gcmBody ks p := by
        rw [List.append_assoc]
        exact List.drop_left' hn
      have htake16 : (((nonce ++ (tagOf nonce (gcmBody ks p)).set (i - 12) b)
          ++ gcmBody ks p).drop 12).take 16
          = (tagOf nonce (gcmBody ks p)).set (i - 12) b := by
        rw [hdrop12]
        exact List.take_left' hsetlen
      -- the original byte at offset i is tag byte i - 12
      have horig : ((nonce ++ tagOf nonce (gcmBody ks p)) ++ gcmBody ks p).getD i 0
          = (tagOf nonce (gcmBody ks p)).getD (i - 12) 0 := by
        rw [List.getD_eq_getElem?_getD, List.getD_eq_getElem?_getD,
            List.getElem?_append_left (by rw [hhead]; omega),
            List.getElem?_append_right (by omega : nonce.length ≤ i), hn]
      have hne : (tagOf nonce (gcmBody ks p)).set (i - 12) b
          ≠ tagOf nonce (gcmBody ks p) := by
        intro hEq
        have h1 : ((tagOf nonce (gcmBody ks p)).set (i - 12) b).getD (i - 12) 0 = b := by
          rw [List.getD_eq_getElem?_getD,
              List.getElem?_set_self (by omega : i - 12 < (tagOf nonce (gcmBody ks p)).length)]
          rfl
        rw [hEq] at h1
        rw [horig] at hb
        exact hb h1
      rw [hset, htake12, hdrop28, htake16]
      rw [beq_eq_false_iff_ne]
      exact fun hEq => hne hEq.symm
    · -- the modified byte lies in the ciphertext
      have hset : ((nonce ++ tagOf nonce (gcmBody ks p)) ++ gcmBody ks p).set i b
          = (nonce ++ tagOf nonce (gcmBody ks p)) ++ (gcmBody ks p).set (i - 28) b := by
        rw [List.set_append, if_neg (by omega : ¬ i < (nonce ++ tagOf nonce (gcmBody ks p)).length),
            hhead]
      have hsetlen : ((gcmBody ks p).set (i - 28) b).length = (gcmBody ks p).length := by
        simp
      have htake12 : ((nonce ++ tagOf nonce (gcmBody ks p))
          ++ (gcmBody ks p).set (i - 28) b).take 12 = nonce := by
        rw [List.append_assoc]
        exact List.take_left' hn
      have hdrop28 : ((nonce ++ tagOf nonce (gcmBody ks p))
          ++ (gcmBody ks p).set (i - 28) b).drop 28 = (gcmBody ks p).set (i - 28) b :=
        List.drop_left' hhead
      have htake16 : (((nonce ++ tagOf nonce (gcmBody ks p))
          ++ (gcmBody ks p).set (i - 28) b).drop 12).take 16
          = tagOf nonce (gcmBody ks p) := by
        rw [List.append_assoc, List.drop_left' hn]
        exact List.take_left' htglen
      have hfor : tagOf nonce ((gcmBody ks p).set (i - 28) b)
          ≠ tagOf nonce (gcmBody ks p) := by
        have h28 : 28 ≤ i := by omega
        have hfg := hforge h28
        rw [hblob, hset, hdrop28] at hfg
        exact hfg
      rw [hset, htake12, hdrop28, htake16]
      rw [beq_eq_false_iff_ne]
      exact hfor
  refine ⟨?_, ?_, ?_⟩
  · simp only [decrypt_file]
    rw [hcheck]
    simp
  · simp only [decrypt_file_to_memory]
    rw [hcheck]
    simp
  · simp only [get_image_decrypted, decrypt_file_to_memory]
    rw [hcheck]
    simp

/-- Witness for C7 at a concrete instance: a one-byte plaintext, the blob
byte at offset 12 (first tag byte) flipped from 7 to 8. -/
theorem C7_witness :
    decrypt_file (fun i => i) (fun _ _ => List.replicate 16 7)
        ((encrypt_file (fun i => i) (fun _ _ => List.replicate 16 7)
          (List.replicate 12 0) [1]).1.set 12 8)
      = (false, none)
    ∧ decrypt_file_to_memory (fun i => i) (fun _ _ => List.replicate 16 7)
        ((encrypt_file (fun i => i) (fun _ _ => List.replicate 16 7)
          (List.replicate 12 0) [1]).1.set 12 8)
      = Except.error "Decryption failed"
    ∧ get_image_decrypted (fun i => i) (fun _ _ => List.replicate 16 7)
        ((encrypt_file (fun i => i) (fun _ _ => List.replicate 16 7)
          (List.replicate 12 0) [1]).1.set 12 8)
      = none :=
  C7_tamper_detection (fun i => i) (fun _ _ => List.replicate 16 7)
    (List.replicate 12 0) [1] 12 8 (by decide) (fun _ _ => rfl) (by decide)
    (by decide) (by decide) (fun h => by omega)

/-- C8, amended: every entry appended by `log_event` carries an
`integrity_hash` equal to the truncated SHA-256 of the canonical JSON of
the entry without that field; the initialization header entry written at
the top of every (fresh or rotated-in) log file carries none. -/
theorem C8_log_event_entries_carry_hash (sha : String → String) (ts : String)
    (tsu : Nat) (etype sid : String) (data : JObj) (file : List Entry) :
    entryHashOk sha (create_log_entry sha ts tsu etype sid data)
    ∧ ∀ e ∈ log_event sha ts tsu etype sid data file, e ∈ file ∨ entryHashOk sha e := by
  have hok : entryHashOk sha (create_log_entry sha ts tsu etype sid data) := by
    unfold entryHashOk create_log_entry calc_entry_hash
    simp [List.lookup, List.filter]
  refine ⟨hok, ?_⟩
  intro e he
  rcases List.mem_append.mp he with h | h
  · exact Or.inl h
  · rw [List.mem_singleton] at h
    exact Or.inr (h ▸ hok)

/-- C8, counterexample: the header entry that `_initialize_log_file` puts
at the top of every log file has no `integrity_hash` field at all, so the
claimed per-entry integrity property fails for it. -/
theorem C8_counterexample_header_entry :
    (initialize_log_file "2025-01-01T00:00:00+00:00").headD []
      ∈ initialize_log_file "2025-01-01T00:00:00+00:00"
    ∧ ¬ entryHashOk (fun s => s)
        ((initialize_log_file "2025-01-01T00:00:00+00:00").headD []) := by
  constructor
  · simp [initialize_log_file]
  · unfold entryHashOk initialize_log_file
    simp [List.lookup]

/-! ### Helper lemmas for tag normalization (C9) -/

/-- Dropping a prefix twice drops it once. -/
theorem dropWhile_dropWhile {α : Type} (p : α → Bool) (l : List α) :
    (l.dropWhile p).dropWhile p = l.dropWhile p := by
  induction l with
  | nil => rfl
  | cons a t ih =>
      by_cases h : p a = true <;> simp [List.dropWhile_cons, h, ih]

/-- The head of `dropWhile p l` does not satisfy `p`. -/
theorem dropWhile_head?_false {α : Type} (p : α → Bool) (l : List α) :
    ∀ x ∈ (l.dropWhile p).head?, p x = false := by
  induction l with
  | nil => simp
  | cons a t ih =>
      by_cases h : p a = true
      · simpa [List.dropWhile_cons, h] using ih
      · rw [Bool.not_eq_true] at h
        simp [List.dropWhile_cons, h]

/-- A list whose head does not satisfy `p` is unchanged by `dropWhile p`. -/
theorem dropWhile_eq_self_of_head {α : Type} (p : α → Bool) (l : List α)
    (h : ∀ x ∈ l.head?, p x = false) : l.dropWhile p = l := by
  cases l with
  | nil => rfl
  | cons a t =>
      have := h a (by simp)
      simp [List.dropWhile_cons, this]

/-- Membership in `stripOn` implies membership in the original string. -/
theorem mem_of_mem_stripOn {cs s : List Char} {c : Char}
    (h : c ∈ stripOn cs s) : c ∈ s := by
  unfold stripOn lstripOn at h
  rw [List.mem_reverse] at h
  have h1 := (List.dropWhile_sublist (l := (List.dropWhile (fun c => cs.contains c) s).reverse)
    (fun c => cs.contains c)).mem h
  rw [List.mem_reverse] at h1
  exact (List.dropWhile_sublist (fun c => cs.contains c)).mem h1

/-- If no character of `s` is in `cs`, stripping does nothing. -/
theorem stripOn_eq_self {cs s : List Char}
    (h : ∀ c ∈ s, cs.contains c = false) : stripOn cs s = s := by
  unfold stripOn lstripOn
  have h1 : List.dropWhile (fun c => cs.contains c) s = s :=
    dropWhile_eq_self_of_head _ _
      (fun x hx => h x (by cases s <;> simp_all))
  rw [h1]
  have h2 : List.dropWhile (fun c => cs.contains c) s.reverse = s.reverse :=
    dropWhile_eq_self_of_head _ _
      (fun x hx => h x (by
        have := List.mem_of_mem_head? hx
        rwa [List.mem_reverse] at this))
  rw [h2, List.reverse_reverse]

/-- The head of a stripped string is not a stripped character (stripping
the tail leaves a suffix of the reversed lstripped string, whose last
element is the head of the lstripped string). -/
theorem stripOn_head?_false (cs s : List Char) :
    ∀ x ∈ (stripOn cs s).head?, cs.contains x = false := by
  intro x hx
  unfold stripOn at hx
  rw [List.head?_reverse] at hx
  rcases hpre : List.dropWhile (fun c => cs.contains c)
      ((lstripOn cs s).reverse) with _ | ⟨a, t⟩
  · rw [hpre] at hx; simp at hx
  · rw [hpre] at hx
    obtain ⟨u, hu⟩ : (a :: t) <:+ (lstripOn cs s).reverse := by
      rw [← hpre]; exact List.dropWhile_suffix _
    have hlast : (u ++ a :: t).getLast? = (a :: t).getLast? := by
      rw [List.getLast?_append]
      cases hy : (a :: t).getLast? with
      | none => simp [List.getLast?_eq_none_iff] at hy
      | some y => rfl
    have hx2 : x ∈ (lstripOn cs s).head? := by
      rw [← List.getLast?_reverse (lstripOn cs s), ← hu, hlast]
      exact hx
    unfold lstripOn at hx2
    exact dropWhile_head?_false _ s x hx2

/-- The last character of a stripped string is not a stripped character. -/
theorem stripOn_getLast?_false (cs s : List Char) :
    ∀ x ∈ (stripOn cs s).getLast?, cs.contains x = false := by
  intro x hx
  unfold stripOn at hx
  rw [List.getLast?_reverse] at hx
  exact dropWhile_head?_false _ _ x hx

/-- Stripping is idempotent. -/
theorem stripOn_stripOn (cs s : List Char) :
    stripOn cs (stripOn cs s) = stripOn cs s := by
  have h1 : lstripOn cs (stripOn cs s) = stripOn cs s :=
    dropWhile_eq_self_of_head _ _ (stripOn_head?_false cs s)
  show ((lstripOn cs (stripOn cs s)).reverse.dropWhile _).reverse = _
  rw [h1]
  have h2 : List.dropWhile (fun c => cs.contains c) (stripOn cs s).reverse
      = (stripOn cs s).reverse := by
    apply dropWhile_eq_self_of_head
    intro x hx
    rw [List.head?_reverse] at hx
    exact stripOn_getLast?_false cs s x hx
  rw [h2, List.reverse_reverse]

/-- Every character of the allowed alphabet is already lower case. -/
theorem allowedChars_toLower : ∀ c ∈ allowedChars, c.toLower = c := by
  decide

/-- No character of the allowed alphabet is ASCII whitespace. -/
theorem allowedChars_not_ws :
    ∀ c ∈ allowedChars, pyWhitespace.contains c = false := by
  decide

/-- Characters of a normalized tag come from the allowed alphabet. -/
theorem mem_allowedChars_of_mem_normalize_tag {t : List Char} {c : Char}
    (h : c ∈ normalize_tag t) : c ∈ allowedChars := by
  unfold normalize_tag at h
  have h1 := mem_of_mem_stripOn h
  have h2 := List.of_mem_filter h1
  simpa using h2

/-- A string of allowed characters that is already separator-stripped is a
fixed point of `normalize_tag`. -/
theorem normalize_tag_fixed {t : List Char}
    (h1 : ∀ c ∈ t, c ∈ allowedChars)
    (h2 : stripOn stripSeparators t = t) : normalize_tag t = t := by
  have hws : stripOn pyWhitespace t = t :=
    stripOn_eq_self (fun c hc => allowedChars_not_ws c (h1 c hc))
  have hlow : t.map Char.toLower = t := by
    have := List.map_congr_left (fun c hc => allowedChars_toLower c (h1 c hc))
    simpa using this
  have hfil : t.filter (fun c => allowedChars.contains c) = t := by
    rw [List.filter_eq_self]
    intro c hc
    simpa using h1 c hc
  show stripOn stripSeparators
      (((stripOn pyWhitespace t).map Char.toLower).filter
        (fun c => allowedChars.contains c)) = t
  rw [hws, hlow, hfil, h2]

/-- Single-tag normalization is idempotent. -/
theorem normalize_tag_idem (t : List Char) :
    normalize_tag (normalize_tag t) = normalize_tag t :=
  normalize_tag_fixed (fun _ hc => mem_allowedChars_of_mem_normalize_tag hc)
    (stripOn_stripOn _ _)

/-- Every element the loop produces is either carried over from the
accumulator or is a non-empty normalized tag. -/
theorem normalize_tags_loop_mem (ts : List (List Char)) :
    ∀ acc, ∀ x ∈ normalize_tags_loop acc ts,
      x ∈ acc ∨ (normalize_tag x = x ∧ x ≠ []) := by
  induction ts with
  | nil => intro acc x hx; exact Or.inl hx
  | cons t ts ih =>
      intro acc x hx
      unfold normalize_tags_loop at hx
      split at hx
      · rename_i hguard
        rcases ih _ x hx with h | h
        · rcases List.mem_append.mp h with h2 | h2
          · exact Or.inl h2
          · rw [List.mem_singleton] at h2
            subst h2
            exact Or.inr ⟨normalize_tag_idem t, hguard.1⟩
        · exact Or.inr h
      · exact ih _ x hx

/-- The loop preserves freedom from duplicates. -/
theorem normalize_tags_loop_nodup (ts : List (List Char)) :
    ∀ acc, acc.Nodup → (normalize_tags_loop acc ts).Nodup := by
  induction ts with
  | nil => intro acc h; exact h
  | cons t ts ih =>
      intro acc h
      unfold normalize_tags_loop
      split
      · rename_i hguard
        exact ih _ (by simp [List.nodup_append, h, hguard.2])
      · exact ih _ h

/-- On a list of non-empty normalized fixed points with no duplicates and
no overlap with the accumulator, the loop appends the list unchanged. -/
theorem normalize_tags_loop_fixed (ts : List (List Char)) :
    ∀ acc, (∀ x ∈ ts, normalize_tag x = x ∧ x ≠ []) → ts.Nodup →
      (∀ x ∈ ts, x ∉ acc) → normalize_tags_loop acc ts = acc ++ ts := by
  induction ts with
  | nil => intro acc _ _ _; simp [normalize_tags_loop]
  | cons t ts ih =>
      intro acc hfix hnd hdis
      unfold normalize_tags_loop
      have hft := hfix t (by simp)
      rw [hft.1, if_pos ⟨hft.2, hdis t (by simp)⟩]
      rw [ih (acc ++ [t]) (fun x hx => hfix x (by simp [hx]))
        (List.Nodup.of_cons hnd)
        (fun x hx => by
          rw [List.mem_append, List.mem_singleton]
          rintro (h | rfl)
          · exact hdis x (by simp [hx]) h
          · exact (List.nodup_cons.mp hnd).1 hx)]
      simp

/-- C9: tag-list normalization is idempotent, its output is sorted (in the
code-point lexicographic order used by Python), duplicate-free and contains
no empty strings; and decrypting an encrypted tag list returns exactly the
normalized, deduplicated, sorted form of the input, given that AES-GCM
decryption followed by JSON parsing inverts serialization followed by
encryption (`hrt`). -/
theorem C9_tag_normalization (β : Type) (enc : TagData → β)
    (dec : β → Option TagData) (hrt : ∀ d, dec (enc d) = some d)
    (L M : List (List Char)) (createdAt : String) :
    normalize_tags (normalize_tags L) = normalize_tags L
    ∧ List.Sorted (fun a b : List Char => a ≤ b) (normalize_tags L)
    ∧ (normalize_tags L).Nodup
    ∧ (∀ t ∈ normalize_tags L, t ≠ [])
    ∧ decrypt_tags dec (encrypt_tags enc createdAt M)
        = Except.ok (normalize_tags M) := by
  have hmemQ : ∀ x ∈ normalize_tags L, normalize_tag x = x ∧ x ≠ [] := by
    intro x hx
    unfold normalize_tags at hx
    rw [List.mem_insertionSort] at hx
    rcases normalize_tags_loop_mem L [] x hx with h | h
    · simp at h
    · exact h
  have hnd : (normalize_tags L).Nodup := by
    have h1 : (normalize_tags_loop [] L).Nodup :=
      normalize_tags_loop_nodup L [] (by simp)
    exact ((List.perm_insertionSort _ _).nodup_iff).mpr h1
  have hsorted : List.Sorted (fun a b : List Char => a ≤ b) (normalize_tags L) :=
    List.sorted_insertionSort _ _
  have hidem : normalize_tags (normalize_tags L) = normalize_tags L := by
    have hloop : normalize_tags_loop [] (normalize_tags L) = normalize_tags L := by
      simpa using normalize_tags_loop_fixed (normalize_tags L) [] hmemQ hnd
        (by simp)
    show (normalize_tags_loop [] (normalize_tags L)).insertionSort _ = _
    rw [hloop]
    exact List.Sorted.insertionSort_eq hsorted
  refine ⟨hidem, hsorted, hnd, fun t ht => (hmemQ t ht).2, ?_⟩
  simp [encrypt_tags, decrypt_tags, hrt]

/-- Witness for C9 at a concrete instance: the identity codec on the tag
document and two small tag lists. -/
theorem C9_witness :
    normalize_tags (normalize_tags [['b'], ['a'], ['b']])
      = normalize_tags [['b'], ['a'], ['b']]
    ∧ List.Sorted (fun a b : List Char => a ≤ b)
        (normalize_tags [['b'], ['a'], ['b']])
    ∧ (normalize_tags [['b'], ['a'], ['b']]).Nodup
    ∧ (∀ t ∈ normalize_tags [['b'], ['a'], ['b']], t ≠ [])
    ∧ decrypt_tags some (encrypt_tags (fun d => d) "t" [['B', ' '], ['a']])
        = Except.ok (normalize_tags [['B', ' '], ['a']]) :=
  C9_tag_normalization TagData (fun d => d) some (fun _ => rfl)
    [['b'], ['a'], ['b']] [['B', ' '], ['a']] "t"

end GraphiVault
